import Mathlib

/-!
Verification of the LEGO-3D-Printer G-code pipeline.

Shallow embedding of the repository's source:
* `GCode`   — gcode_handler.py (`GCodeProcessor.parse_line` and its helpers),
  over exact rationals; text is handled as lists of characters;
* `Job`     — main.py's per-line print loop and printer.py's `Printer.extrude`
  state machine, as a trace-producing transition system;
* `Homing`  — the offset phase of `Printer.home` (printer.py);
* `Printer` — `Printer._calculate_velocity_components` and `Printer.move`
  (printer.py), over the reals.
-/

namespace GCode

/-- ASCII digit test, Python's notion for the numerals this program feeds to
`float()`. -/
def pyIsDigit (c : Char) : Bool := '0' ≤ c && c ≤ '9'

/-- Value of a digit string read left to right. -/
def natOfDigits (cs : List Char) : ℕ :=
  cs.foldl (fun acc c => 10 * acc + (c.toNat - 48)) 0

/-- Python's `str.strip()`: remove leading and trailing whitespace. -/
def pyStrip (cs : List Char) : List Char :=
  ((cs.dropWhile Char.isWhitespace).reverse.dropWhile Char.isWhitespace).reverse

/-- Worker for `pySplitWs`, carrying the reversed current token. -/
def splitWsAux : List Char → List Char → List (List Char)
  | [], acc => if acc.isEmpty then [] else [acc.reverse]
  | c :: cs, acc =>
    if c.isWhitespace then
      if acc.isEmpty then splitWsAux cs []
      else acc.reverse :: splitWsAux cs []
    else splitWsAux cs (c :: acc)

/-- Python's `str.split()` with no argument: split on runs of whitespace,
never producing empty tokens. -/
def pySplitWs (cs : List Char) : List (List Char) := splitWsAux cs []

/-- Model of Python's built-in `float(s)` returning an exact rational:
optional sign, then digits with an optional decimal point, at least one digit
overall; any other shape raises `ValueError`, modelled as `none`.  (Exponents,
`inf`/`nan`, underscores and surrounding whitespace never occur in this
program's G-code parameter values and are not modelled.) -/
def pyFloat? (cs : List Char) : Option ℚ :=
  let signAndRest : ℚ × List Char :=
    match cs with
    | '+' :: rest => (1, rest)
    | '-' :: rest => (-1, rest)
    | _ => (1, cs)
  let sign := signAndRest.1
  let body := signAndRest.2
  let intPart := body.takeWhile pyIsDigit
  let rest := body.dropWhile pyIsDigit
  match rest with
  | [] =>
    if intPart.isEmpty then none
    else some (sign * (natOfDigits intPart : ℚ))
  | '.' :: fracPart =>
    if fracPart.all pyIsDigit && !(intPart.isEmpty && fracPart.isEmpty) then
      some (sign * ((natOfDigits intPart : ℚ) +
        (natOfDigits fracPart : ℚ) / (10 ^ fracPart.length)))
    else none
  | _ => none

/-- The `raw_params` dictionary of `GCodeProcessor.parse_line`; kept as an
association list with the most recent assignment first, so lookup of the first
match gives Python-dict overwrite semantics. -/
abbrev RawParams := List (Char × ℚ)

/-- Python's `raw_params.get(c, None)`. -/
def getParam (ps : RawParams) (c : Char) : Option ℚ :=
  (ps.find? (fun p => p.1 == c)).map Prod.snd

/-- The parameter-extraction loop of `parse_line` (gcode_handler.py 160-174).
Returns the accumulated `raw_params` together with the number of warnings
emitted.  The `try`/`except ValueError` in the source wraps the *whole* `for`
loop, so a failing `float()` ends the loop: the remaining tokens of the line
are not processed and exactly one warning is printed. -/
def parseParams : List (List Char) → RawParams → RawParams × ℕ
  | [], acc => (acc, 0)
  | part :: rest, acc =>
    let part := pyStrip part
    if part.length ≥ 2 then
      let param_code := (part.headD ' ').toUpper
      if 'A' ≤ param_code ∧ param_code ≤ 'Z' then
        match pyFloat? part.tail with
        | some param_value => parseParams rest ((param_code, param_value) :: acc)
        | none => (acc, 1)
      else parseParams rest acc
    else parseParams rest acc

/-- The parsed `G0`/`G1` result dictionary of `parse_line`. -/
structure MoveCommand where
  command : List Char
  extruding : Bool
  x : Option ℚ
  y : Option ℚ
  z : Option ℚ
deriving Repr, DecidableEq

/-- The mutable state of `GCodeProcessor`: the absolute-extrusion watermark
`self.last_e_value`, initialised to `0.0`. -/
structure GCodeProcessor where
  last_e_value : ℚ
deriving Repr, DecidableEq

/-- The command dispatch of `parse_line` (gcode_handler.py 176-235), acting on
the already-extracted command word and `raw_params`.  Returns the new
processor state and the optional move command. -/
def applyCommand (st : GCodeProcessor) (command : List Char) (raw_params : RawParams) :
    GCodeProcessor × Option MoveCommand :=
  if command = ['G', '0'] ∨ command = ['G', '1'] then
    let base : MoveCommand :=
      { command := command
        extruding := false
        x := getParam raw_params 'X'
        y := getParam raw_params 'Y'
        z := getParam raw_params 'Z' }
    match getParam raw_params 'E' with
    | some current_e =>
      if current_e > st.last_e_value then
        ({ last_e_value := current_e }, some { base with extruding := true })
      else (st, some base)
    | none => (st, some base)
  else if command = ['G', '9', '2'] then
    match getParam raw_params 'E' with
    | some new_e => ({ last_e_value := new_e }, none)
    | none => (st, none)
  else (st, none)

/-- Embedding of `GCodeProcessor.parse_line` (gcode_handler.py 120-235): strip the comment
tail and whitespace, split into tokens, extract parameters, dispatch.
Returns the new state, the optional move command, and the warning count. -/
def parse_line (st : GCodeProcessor) (gcode_line : String) :
    GCodeProcessor × Option MoveCommand × ℕ :=
  let cs := gcode_line.data.takeWhile (fun c => c != ';')
  let cleaned_line := pyStrip cs
  if cleaned_line.isEmpty then (st, none, 0)
  else
    match pySplitWs cleaned_line with
    | [] => (st, none, 0)
    | cmdTok :: paramToks =>
      let command := cmdTok.map Char.toUpper
      let st_params := parseParams paramToks []
      let dispatched := applyCommand st command st_params.1
      (dispatched.1, dispatched.2, st_params.2)

/-- A line reduced to its dispatch-level content: the upper-cased command word
and the parameters extracted from it. -/
abbrev HistLine := List Char × RawParams

/-- Run the command dispatch over a sequence of lines, threading the
processor state. -/
def runCmds (st : GCodeProcessor) : List HistLine → GCodeProcessor
  | [] => st
  | l :: rest => runCmds (applyCommand st l.1 l.2).1 rest

/-- Stated from the claim's words, for comparison with the code: the E values
seen via G0/G1 lines since the most recent G92 that carried an E parameter
(each G92 E discards what was collected before it). -/
def esSinceLastReset (acc : List ℚ) : List HistLine → List ℚ
  | [] => acc
  | l :: rest =>
    if l.1 = ['G', '0'] ∨ l.1 = ['G', '1'] then
      match getParam l.2 'E' with
      | some e => esSinceLastReset (acc ++ [e]) rest
      | none => esSinceLastReset acc rest
    else if l.1 = ['G', '9', '2'] ∧ (getParam l.2 'E').isSome then
      esSinceLastReset [] rest
    else esSinceLastReset acc rest

/-- Stated from the amended claim's words: the baseline the watermark falls
back to, namely the E value of the most recent G92 carrying one, or the
initial watermark when no G92 E has occurred. -/
def lastBaseline (b : ℚ) : List HistLine → ℚ
  | [] => b
  | l :: rest =>
    if l.1 = ['G', '9', '2'] ∧ (getParam l.2 'E').isSome then
      lastBaseline ((getParam l.2 'E').getD b) rest
    else lastBaseline b rest

/-- Whether a history contains a G92 line carrying an E parameter. -/
def hasReset : List HistLine → Bool
  | [] => false
  | l :: rest =>
    (decide (l.1 = ['G', '9', '2']) && (getParam l.2 'E').isSome) || hasReset rest

end GCode

namespace Job

/-- Observable events of one print job: calls into `Printer.extrude`, the
physical extruder sequences it triggers (`Printer._start_extruding` /
`Printer._stop_extruding`), and calls into `Printer.move`. -/
inductive JobEv
  | extrudeCall (want : Bool)
  | engageSeq
  | disengageSeq
  | moveCall (x y z prev_x prev_y prev_z : ℚ) (command : List Char)
deriving Repr, DecidableEq

/-- Embedding of `Printer.extrude` (printer.py 232-250): given the current `self.extruding`
flag and the requested state, return the new flag and the physical actuation
performed.  A request equal to the current state does nothing. -/
def extrude (extruding want : Bool) : Bool × List JobEv :=
  if want ∧ ¬ extruding then (true, [JobEv.engageSeq])
  else if ¬ want ∧ extruding then (false, [JobEv.disengageSeq])
  else (extruding, [])

/-- The state threaded through main.py's print loop: the G-code processor,
the current position belief, and the printer's extruder flag. -/
structure JobState where
  processor : GCode.GCodeProcessor
  current_x : ℚ
  current_y : ℚ
  current_z : ℚ
  extruding : Bool
deriving Repr, DecidableEq

/-- Execution of one accepted move command (main.py 96-123): extruder on
before the move when the line extrudes, the move itself, extruder off after
the move when it does not, then the position update. -/
def execParsed (js : JobState) (m : GCode.MoveCommand) : JobState × List JobEv :=
  let target_x := m.x.getD js.current_x
  let target_y := m.y.getD js.current_y
  let target_z := m.z.getD js.current_z
  let should_extrude := m.extruding
  let onStep :=
    if should_extrude then
      let s := extrude js.extruding should_extrude
      (s.1, JobEv.extrudeCall should_extrude :: s.2)
    else (js.extruding, [])
  let trMove :=
    [JobEv.moveCall target_x target_y target_z js.current_x js.current_y js.current_z m.command]
  let offStep :=
    if ¬ should_extrude then
      let s := extrude onStep.1 should_extrude
      (s.1, JobEv.extrudeCall should_extrude :: s.2)
    else (onStep.1, [])
  ({ processor := js.processor
     current_x := target_x
     current_y := target_y
     current_z := target_z
     extruding := offStep.1 },
   onStep.2 ++ trMove ++ offStep.2)

/-- The per-line loop of main.py (lines 76-128): bump the line counter, stop
if the cancel button is pressed, otherwise parse the line and execute any
resulting move command. -/
def runLines (cancel : ℕ → Bool) : List String → JobState → ℕ → JobState × List JobEv
  | [], js, _ => (js, [])
  | line :: rest, js, line_count =>
    let line_count := line_count + 1
    if cancel line_count then (js, [])
    else
      let parsed := GCode.parse_line js.processor line
      let js := { js with processor := parsed.1 }
      match parsed.2.1 with
      | some m =>
        let step := execParsed js m
        let next := runLines cancel rest step.1 line_count
        (next.1, step.2 ++ next.2)
      | none => runLines cancel rest js line_count

/-- A whole job (main.py 76-131): the per-line loop followed by the
unconditional `printer.extrude(False)` once the loop has ended. -/
def runJob (cancel : ℕ → Bool) (lines : List String) (js : JobState) :
    JobState × List JobEv :=
  let looped := runLines cancel lines js 0
  let final := extrude looped.1.extruding false
  ({ looped.1 with extruding := final.1 },
   looped.2 ++ JobEv.extrudeCall false :: final.2)

end Job

namespace Homing

/-- The three gantry axes. -/
inductive Axis
  | x | y | z
deriving Repr, DecidableEq

/-- Observable events of the homing offset phase: `motor.run_angle` (blocking),
the `wait(500)` settle pause, `motor.reset_angle(0)` and `motor.stop()`. -/
inductive HomeEv
  | runAngle (axis : Axis) (speed angle : ℚ)
  | settle (ms : ℕ)
  | resetAngle (axis : Axis) (value : ℚ)
  | stop (axis : Axis)
deriving Repr, DecidableEq

/-- Source constant `self.xy_speed` (printer.py 36). -/
def xy_speed : ℚ := 90

/-- Source constant `self.z_speed` (printer.py 37). -/
def z_speed : ℚ := 1000

/-- The inner helper `offset(motor, offset, speed)` of `Printer.home`
(printer.py 419-428): move by the offset and settle only when it is nonzero,
then reset the axis's logical zero to the position reached and stop. -/
def offsetStep (axis : Axis) (offset speed : ℚ) : List HomeEv :=
  (if offset ≠ 0 then [HomeEv.runAngle axis speed offset, HomeEv.settle 500] else []) ++
  [HomeEv.resetAngle axis 0, HomeEv.stop axis]

/-- Source constant `Z_offset_up` (printer.py 386). -/
def Z_offset_up : ℚ := 18

/-- Source constant `X_offset` (printer.py 387). -/
def X_offset : ℚ := 290

/-- Source constant `Y_offset` (printer.py 388). -/
def Y_offset : ℚ := 0

/-- Source constant `Z_offset_down` (printer.py 389). -/
def Z_offset_down : ℚ := -11.25

/-- The offset phase of `Printer.home` (printer.py 459-466), run after all
three axes have been zeroed against their touch sensors: Z up, then X, then
Y, then Z down. -/
def homeOffsetPhase : List HomeEv :=
  offsetStep Axis.z Z_offset_up z_speed ++
  offsetStep Axis.x X_offset xy_speed ++
  offsetStep Axis.y Y_offset xy_speed ++
  offsetStep Axis.z Z_offset_down z_speed

end Homing

namespace Printer

noncomputable section

/-- Python's `int(...)` applied to a float: truncation toward zero. -/
def pyInt (r : ℝ) : ℤ := if 0 ≤ r then ⌊r⌋ else ⌈r⌉

/-- Source constant `self.xy_speed` (printer.py 36). -/
def xy_speed : ℝ := 90

/-- Source constant `self.z_speed` (printer.py 37). -/
def z_speed : ℝ := 1000

/-- Source constant `self.max_xy_speed_multiplier` (printer.py 42). -/
def max_xy_speed_multiplier : ℝ := 3

/-- Source constant `self.x_mm_per_degree` (printer.py 46). -/
def x_mm_per_degree : ℝ := 4 / 45

/-- Source constant `self.y_mm_per_degree` (printer.py 47). -/
def y_mm_per_degree : ℝ := 4 / 45

/-- Source constant `self.z_mm_per_degree` (printer.py 48). -/
def z_mm_per_degree : ℝ := 8 / 45

/-- Embedding of `Printer._calculate_velocity_components` (printer.py 252-290). -/
def calculate_velocity_components
    (current_x current_y target_x target_y target_speed : ℝ) : ℝ × ℝ :=
  let dx := target_x - current_x
  let dy := target_y - current_y
  let distance := Real.sqrt (dx * dx + dy * dy)
  if distance < 0.05 then (0, 0)
  else
    let inv_distance := 1 / distance
    let vx := dx * inv_distance * target_speed
    let vy := dy * inv_distance * target_speed
    let vx := if |dx| < 0.05 then 0 else vx
    let vy := if |dy| < 0.05 then 0 else vy
    (vx, vy)

/-- Actuator commands issued by `Printer.move`: a blocking
`z_motor.run_target`, the barrier polling both XY motors for completion of
their previous commands, and the non-blocking XY `run_target` calls. -/
inductive MoveEv
  | zRunTarget (speed : ℝ) (target : ℤ)
  | xyBarrier
  | xRunTarget (speed : ℝ) (target : ℤ)
  | yRunTarget (speed : ℝ) (target : ℤ)

/-- Embedding of `Printer.move` (printer.py 292-338) as the list of actuator commands it
issues, in order.  `x_angle` and `y_angle` are the current motor angles
reported by `self.x_motor.angle()` / `self.y_motor.angle()`.  The caller
(main.py) only ever passes `"G0"` or `"G1"` as the command.  Note the source
converts the target coordinates to integer degrees in place, so its two Z
comparisons test the degree-valued target against the still
millimeter-valued `prev_z`. -/
def move (x_angle y_angle : ℤ) (x y z prev_x prev_y prev_z : ℝ)
    (command : String) : List MoveEv :=
  let speeds :=
    if command = "G1" then
      calculate_velocity_components prev_x prev_y x y xy_speed
    else if command = "G0" then
      calculate_velocity_components prev_x prev_y x y (xy_speed * max_xy_speed_multiplier)
    else (0, 0)
  let x_speed := speeds.1
  let y_speed := speeds.2
  let xi := pyInt (x / x_mm_per_degree)
  let yi := pyInt (y / y_mm_per_degree)
  let zi := pyInt (z / z_mm_per_degree)
  (if (zi : ℝ) > prev_z then [MoveEv.zRunTarget z_speed zi] else []) ++
  [MoveEv.xyBarrier] ++
  (if |x_speed| > 2 ∧ |x_angle - xi| > 2 then [MoveEv.xRunTarget x_speed xi] else []) ++
  (if |y_speed| > 2 ∧ |y_angle - yi| > 2 then [MoveEv.yRunTarget y_speed yi] else []) ++
  (if (zi : ℝ) < prev_z then [MoveEv.zRunTarget z_speed zi] else [])

end

end Printer

/-- C2: the claim says a malformed parameter value is skipped with one warning
and the rest of the line is still parsed, so that "G1 Xfoo Y5" yields y = 5.
Evaluating the embedded `parse_line` at that very line shows otherwise: the
failing `float("foo")` raises out of the whole parameter loop, so the
returned command has neither x nor y (one warning is emitted). -/
theorem C2_malformed_param_aborts_line :
    GCode.parse_line ⟨0⟩ "G1 Xfoo Y5" =
      (⟨0⟩, some ⟨['G', '1'], false, none, none, none⟩, 1) := by
  norm_num +decide [GCode.parse_line, GCode.pyStrip, GCode.pySplitWs, GCode.splitWsAux,
    GCode.parseParams, GCode.pyFloat?, GCode.pyIsDigit, GCode.natOfDigits, GCode.getParam,
    GCode.applyCommand,
    show 'G'.toUpper = 'G' from rfl, show '1'.toUpper = '1' from rfl]

/-- C10: a parameter token whose stripped form is shorter than two characters,
or whose upcased first character is not an ASCII letter A-Z, is silently
ignored: no parameter, no warning, and parsing continues with the remaining
tokens; in particular "G1 X Y5" parses to a command with y = 5, x absent and
no warning. -/
theorem C10_short_or_nonletter_tokens_ignored :
    (∀ (part : List Char) (rest : List (List Char)) (acc : GCode.RawParams),
        (GCode.pyStrip part).length < 2 →
        GCode.parseParams (part :: rest) acc = GCode.parseParams rest acc) ∧
    (∀ (part : List Char) (rest : List (List Char)) (acc : GCode.RawParams),
        2 ≤ (GCode.pyStrip part).length →
        ¬('A' ≤ ((GCode.pyStrip part).headD ' ').toUpper ∧
          ((GCode.pyStrip part).headD ' ').toUpper ≤ 'Z') →
        GCode.parseParams (part :: rest) acc = GCode.parseParams rest acc) ∧
    GCode.parse_line ⟨0⟩ "G1 X Y5" =
      (⟨0⟩, some ⟨['G', '1'], false, none, some 5, none⟩, 0) := by
  refine ⟨?_, ?_, ?_⟩
  · intro part rest acc h
    simp only [GCode.parseParams]
    rw [if_neg (by omega)]
  · intro part rest acc h1 h2
    simp only [GCode.parseParams]
    rw [if_pos h1, if_neg h2]
  · norm_num +decide [GCode.parse_line, GCode.pyStrip, GCode.pySplitWs, GCode.splitWsAux,
      GCode.parseParams, GCode.pyFloat?, GCode.pyIsDigit, GCode.natOfDigits, GCode.getParam,
      GCode.applyCommand, show '5'.toNat = 53 from rfl,
      show 'G'.toUpper = 'G' from rfl, show '1'.toUpper = '1' from rfl]

/-- Witness for C10 at the short token "X". -/
theorem C10_short_or_nonletter_tokens_ignored_witness :
    GCode.parseParams (['X'] :: [['Y', '5']]) [] = GCode.parseParams [['Y', '5']] [] :=
  C10_short_or_nonletter_tokens_ignored.1 ['X'] [['Y', '5']] [] (by decide)

/-- C4: a G92 with an E parameter unconditionally overwrites the watermark
and produces no move command; without an E parameter it is a no-op; hence
after G92 E v, a G1 with the same E value does not extrude while a G1 with
E = v + 0.01 does. -/
theorem C4_g92_overwrites_watermark :
    (∀ (st : GCode.GCodeProcessor) (ps : GCode.RawParams) (e : ℚ),
        GCode.getParam ps 'E' = some e →
        GCode.applyCommand st ['G', '9', '2'] ps = (⟨e⟩, none)) ∧
    (∀ (st : GCode.GCodeProcessor) (ps : GCode.RawParams),
        GCode.getParam ps 'E' = none →
        GCode.applyCommand st ['G', '9', '2'] ps = (st, none)) ∧
    (∀ (st : GCode.GCodeProcessor) (v : ℚ),
        (GCode.applyCommand st ['G', '9', '2'] [('E', v)]).1 = ⟨v⟩ ∧
        (GCode.applyCommand ⟨v⟩ ['G', '1'] [('E', v)]).2 =
          some ⟨['G', '1'], false, none, none, none⟩ ∧
        (GCode.applyCommand ⟨v⟩ ['G', '1'] [('E', v + 0.01)]).2 =
          some ⟨['G', '1'], true, none, none, none⟩) := by
  refine ⟨?_, ?_, ?_⟩
  · intro st ps e h
    simp +decide [GCode.applyCommand, h]
  · intro st ps h
    simp +decide [GCode.applyCommand, h]
  · intro st v
    refine ⟨?_, ?_, ?_⟩
    · simp +decide [GCode.applyCommand, GCode.getParam, List.find?]
    · simp +decide [GCode.applyCommand, GCode.getParam, List.find?]
    · simp +decide [GCode.applyCommand, GCode.getParam, List.find?]
      norm_num

/-- Witness for C4 at a concrete parameter list. -/
theorem C4_g92_overwrites_watermark_witness :
    GCode.applyCommand ⟨0⟩ ['G', '9', '2'] [('E', (2 : ℚ))] = (⟨2⟩, none) :=
  C4_g92_overwrites_watermark.1 ⟨0⟩ [('E', (2 : ℚ))] 2 rfl

/-- C6: `Printer.extrude` is a no-op when the requested state equals the
current one; an immediately repeated identical request never re-triggers the
physical sequence; and from the initial (off) state, two consecutive
`extrude(True)` calls run the engage sequence exactly once. -/
theorem C6_extrude_idempotent :
    (∀ s w : Bool, w = s → Job.extrude s w = (s, [])) ∧
    (∀ s w : Bool, Job.extrude (Job.extrude s w).1 w = ((Job.extrude s w).1, [])) ∧
    (Job.extrude false true = (true, [Job.JobEv.engageSeq]) ∧
      Job.extrude true true = (true, []) ∧
      ((Job.extrude false true).2 ++ (Job.extrude (Job.extrude false true).1 true).2).count
          Job.JobEv.engageSeq = 1) := by
  decide

/-- Witness for C6 at an equal request. -/
theorem C6_extrude_idempotent_witness :
    Job.extrude true true = (true, []) :=
  C6_extrude_idempotent.1 true true rfl

/-- C5: for every accepted move command, when the line extrudes the
extruder-on call (and any physical engage) happens strictly before the move
command is issued, and when it does not extrude the extruder-off call happens
strictly after the move. -/
theorem C5_extruder_transition_ordering (js : Job.JobState) (m : GCode.MoveCommand) :
    (m.extruding = true →
      (Job.execParsed js m).2 =
        (Job.JobEv.extrudeCall true :: (Job.extrude js.extruding true).2) ++
          [Job.JobEv.moveCall (m.x.getD js.current_x) (m.y.getD js.current_y)
            (m.z.getD js.current_z) js.current_x js.current_y js.current_z m.command]) ∧
    (m.extruding = false →
      (Job.execParsed js m).2 =
        Job.JobEv.moveCall (m.x.getD js.current_x) (m.y.getD js.current_y)
            (m.z.getD js.current_z) js.current_x js.current_y js.current_z m.command ::
          Job.JobEv.extrudeCall false :: (Job.extrude js.extruding false).2) := by
  constructor <;> intro h <;> simp [Job.execParsed, h]

/-- Witness for C5 on a concrete extruding command from the initial state. -/
theorem C5_extruder_transition_ordering_witness :
    (Job.execParsed ⟨⟨0⟩, 0, 0, 0, false⟩ ⟨['G', '1'], true, none, none, none⟩).2 =
      (Job.JobEv.extrudeCall true :: (Job.extrude false true).2) ++
        [Job.JobEv.moveCall 0 0 0 0 0 0 ['G', '1']] :=
  C5_extruder_transition_ordering ⟨⟨0⟩, 0, 0, 0, false⟩ ⟨['G', '1'], true, none, none, none⟩
    |>.1 rfl

/-- C9: for every job - any line sequence and any cancellation schedule,
including one that breaks the loop mid-file - the driver issues an
unconditional `extrude(False)` call after the per-line loop, so the job's
final extruder state is off. -/
theorem C9_final_extrude_off (cancel : ℕ → Bool) (lines : List String) (js : Job.JobState) :
    (Job.runJob cancel lines js).1.extruding = false ∧
    (Job.runJob cancel lines js).2 =
      (Job.runLines cancel lines js 0).2 ++
        Job.JobEv.extrudeCall false ::
          (Job.extrude (Job.runLines cancel lines js 0).1.extruding false).2 := by
  constructor
  · show (Job.extrude (Job.runLines cancel lines js 0).1.extruding false).1 = false
    cases h : (Job.runLines cancel lines js 0).1.extruding <;> simp [Job.extrude]
  · rfl

/-- C8: after zeroing, the offset sequence always runs Z up, then X, then Y,
then Z down; every nonzero offset step moves, settles for 500 ms and only
then resets the axis zero, while a zero offset step neither moves nor pauses
but still resets the axis zero. -/
theorem C8_homing_offset_sequence :
    (∀ (a : Homing.Axis) (o s : ℚ), o ≠ 0 →
        Homing.offsetStep a o s =
          [Homing.HomeEv.runAngle a s o, Homing.HomeEv.settle 500,
           Homing.HomeEv.resetAngle a 0, Homing.HomeEv.stop a]) ∧
    (∀ (a : Homing.Axis) (s : ℚ),
        Homing.offsetStep a 0 s = [Homing.HomeEv.resetAngle a 0, Homing.HomeEv.stop a]) ∧
    0 < Homing.Z_offset_up ∧ Homing.Z_offset_down < 0 ∧
    Homing.homeOffsetPhase =
      [Homing.HomeEv.runAngle Homing.Axis.z Homing.z_speed Homing.Z_offset_up,
       Homing.HomeEv.settle 500,
       Homing.HomeEv.resetAngle Homing.Axis.z 0, Homing.HomeEv.stop Homing.Axis.z,
       Homing.HomeEv.runAngle Homing.Axis.x Homing.xy_speed Homing.X_offset,
       Homing.HomeEv.settle 500,
       Homing.HomeEv.resetAngle Homing.Axis.x 0, Homing.HomeEv.stop Homing.Axis.x,
       Homing.HomeEv.resetAngle Homing.Axis.y 0, Homing.HomeEv.stop Homing.Axis.y,
       Homing.HomeEv.runAngle Homing.Axis.z Homing.z_speed Homing.Z_offset_down,
       Homing.HomeEv.settle 500,
       Homing.HomeEv.resetAngle Homing.Axis.z 0, Homing.HomeEv.stop Homing.Axis.z] := by
  refine ⟨?_, ?_, ?_, ?_, ?_⟩
  · intro a o s h
    simp [Homing.offsetStep, h]
  · intro a s
    simp [Homing.offsetStep]
  · norm_num [Homing.Z_offset_up]
  · norm_num [Homing.Z_offset_down]
  · simp only [Homing.homeOffsetPhase, Homing.offsetStep]
    norm_num [Homing.Z_offset_up, Homing.Z_offset_down, Homing.X_offset, Homing.Y_offset]

/-- Witness for C8 at the configured X offset. -/
theorem C8_homing_offset_sequence_witness :
    Homing.offsetStep Homing.Axis.x 290 90 =
      [Homing.HomeEv.runAngle Homing.Axis.x 90 290, Homing.HomeEv.settle 500,
       Homing.HomeEv.resetAngle Homing.Axis.x 0, Homing.HomeEv.stop Homing.Axis.x] :=
  C8_homing_offset_sequence.1 Homing.Axis.x 290 90 (by norm_num)

/-- C1: the claim says a target Z lower than the previous Z is commanded only
after the XY phase, and an unchanged Z issues no Z command.  The code
converts the target to integer degrees in place and then compares degrees
against the millimeter-valued previous Z, so moving from z = 1 mm down to
z = 0.9 mm (no XY motion) issues the Z command before the XY barrier - as a
raise - and none after it. -/
theorem C1_move_z_before_xy_on_lowered_target :
    Printer.move 0 0 0 0 0.9 0 0 1 "G1" =
      [Printer.MoveEv.zRunTarget Printer.z_speed 5, Printer.MoveEv.xyBarrier] := by
  have hz : Printer.pyInt (0.9 / Printer.z_mm_per_degree) = 5 := by
    rw [show (0.9 : ℝ) / Printer.z_mm_per_degree = 81 / 16 by
      norm_num [Printer.z_mm_per_degree]]
    rw [Printer.pyInt, if_pos (by norm_num)]
    exact Int.floor_eq_iff.mpr (by norm_num)
  have h0 : Printer.pyInt (0 / Printer.x_mm_per_degree) = 0 := by
    rw [Printer.pyInt, zero_div, if_pos le_rfl, Int.floor_zero]
  have hv : Printer.calculate_velocity_components 0 0 0 0 Printer.xy_speed = (0, 0) := by
    rw [Printer.calculate_velocity_components]
    norm_num
  simp only [Printer.move, if_pos rfl, Printer.x_mm_per_degree, Printer.y_mm_per_degree]
  rw [show (4 : ℝ) / 45 = Printer.x_mm_per_degree from rfl]
  simp only [hv, hz, h0]
  norm_num

/-- C7: the XY velocity computation returns (0, 0) below the 0.05 mm
displacement dead-zone; otherwise it returns the displacement normalised and
scaled by the nominal speed, with each component forced to 0 when that axis's
delta is below 0.05 mm; for previous (0,0) and target (3,4) it yields exactly
(0.6 s, 0.8 s). -/
theorem C7_velocity_components_spec
    (current_x current_y target_x target_y target_speed : ℝ) :
    (Real.sqrt ((target_x - current_x) * (target_x - current_x) +
        (target_y - current_y) * (target_y - current_y)) < 0.05 →
      Printer.calculate_velocity_components current_x current_y target_x target_y
        target_speed = (0, 0)) ∧
    (0.05 ≤ Real.sqrt ((target_x - current_x) * (target_x - current_x) +
        (target_y - current_y) * (target_y - current_y)) →
      Printer.calculate_velocity_components current_x current_y target_x target_y
          target_speed =
        ((if |target_x - current_x| < 0.05 then 0
          else (target_x - current_x) /
            Real.sqrt ((target_x - current_x) * (target_x - current_x) +
              (target_y - current_y) * (target_y - current_y)) * target_speed),
         (if |target_y - current_y| < 0.05 then 0
          else (target_y - current_y) /
            Real.sqrt ((target_x - current_x) * (target_x - current_x) +
              (target_y - current_y) * (target_y - current_y)) * target_speed))) ∧
    Printer.calculate_velocity_components 0 0 3 4 target_speed =
      (0.6 * target_speed, 0.8 * target_speed) := by
  refine ⟨?_, ?_, ?_⟩
  · intro h
    rw [Printer.calculate_velocity_components, if_pos h]
  · intro h
    rw [Printer.calculate_velocity_components, if_neg (not_lt.mpr h)]
    dsimp only
    rw [Prod.mk.injEq]
    constructor
    · by_cases hx : |target_x - current_x| < 0.05
      · simp only [if_pos hx]
      · simp only [if_neg hx]; ring
    · by_cases hy : |target_y - current_y| < 0.05
      · simp only [if_pos hy]
      · simp only [if_neg hy]; ring
  · have h25 : Real.sqrt ((3 - 0) * (3 - 0) + (4 - 0) * (4 - 0)) = 5 := by
      rw [show ((3 : ℝ) - 0) * (3 - 0) + (4 - 0) * (4 - 0) = 5 ^ 2 by norm_num]
      exact Real.sqrt_sq (by norm_num)
    rw [Printer.calculate_velocity_components]
    dsimp only
    rw [h25, if_neg (by norm_num), if_neg (by norm_num), if_neg (by norm_num)]
    norm_num

/-- Witness for C7: the 3-4-5 instance at unit speed. -/
theorem C7_velocity_components_spec_witness :
    Printer.calculate_velocity_components 0 0 3 4 1 = (0.6 * 1, 0.8 * 1) :=
  (C7_velocity_components_spec 0 0 3 4 1).2.2

lemma esSinceLastReset_acc (hist : List GCode.HistLine) :
    ∀ acc : List ℚ,
      GCode.esSinceLastReset acc hist =
        if GCode.hasReset hist then GCode.esSinceLastReset [] hist
        else acc ++ GCode.esSinceLastReset [] hist := by
  induction hist with
  | nil =>
    intro acc
    simp [GCode.esSinceLastReset, GCode.hasReset]
  | cons l rest ih =>
    intro acc
    by_cases hg : l.1 = ['G', '0'] ∨ l.1 = ['G', '1']
    · have hne : ¬ l.1 = ['G', '9', '2'] := by
        rcases hg with h | h <;> simp [h]
      have hh : GCode.hasReset (l :: rest) = GCode.hasReset rest := by
        simp [GCode.hasReset, hne]
      cases hE : GCode.getParam l.2 'E' with
      | some e =>
        simp only [GCode.esSinceLastReset, if_pos hg, hE, List.nil_append, hh]
        rw [ih (acc ++ [e]), ih [e]]
        by_cases hr : GCode.hasReset rest = true
        · simp [hr]
        · simp [hr]
      | none =>
        simp only [GCode.esSinceLastReset, if_pos hg, hE, hh]
        rw [ih acc]
    · by_cases h92 : l.1 = ['G', '9', '2']
      · cases hE : GCode.getParam l.2 'E' with
        | some e =>
          have hcond : l.1 = ['G', '9', '2'] ∧ (GCode.getParam l.2 'E').isSome = true := by
            rw [hE]; exact ⟨h92, rfl⟩
          have hh : GCode.hasReset (l :: rest) = true := by
            simp [GCode.hasReset, h92, hE]
          simp only [GCode.esSinceLastReset, if_neg hg, if_pos hcond, hh, if_true]
        | none =>
          have hcond : ¬(l.1 = ['G', '9', '2'] ∧ (GCode.getParam l.2 'E').isSome = true) := by
            rw [hE]; rintro ⟨-, h⟩; exact Bool.false_ne_true h
          have hh : GCode.hasReset (l :: rest) = GCode.hasReset rest := by
            simp [GCode.hasReset, hE]
          simp only [GCode.esSinceLastReset, if_neg hg, if_neg hcond, hh]
          rw [ih acc]
      · have hcond : ¬(l.1 = ['G', '9', '2'] ∧ (GCode.getParam l.2 'E').isSome = true) :=
          fun hc => h92 hc.1
        have hh : GCode.hasReset (l :: rest) = GCode.hasReset rest := by
          simp [GCode.hasReset, h92]
        simp only [GCode.esSinceLastReset, if_neg hg, if_neg hcond, hh]
        rw [ih acc]

lemma lastBaseline_cases (hist : List GCode.HistLine) :
    (GCode.hasReset hist = false → ∀ b, GCode.lastBaseline b hist = b) ∧
    (GCode.hasReset hist = true →
      ∀ b b', GCode.lastBaseline b hist = GCode.lastBaseline b' hist) := by
  induction hist with
  | nil =>
    refine ⟨fun _ b => rfl, fun h => ?_⟩
    simp [GCode.hasReset] at h
  | cons l rest ih =>
    constructor
    · intro h b
      have hhead : (decide (l.1 = ['G', '9', '2']) && (GCode.getParam l.2 'E').isSome) = false := by
        cases hd : (decide (l.1 = ['G', '9', '2']) && (GCode.getParam l.2 'E').isSome) with
        | false => rfl
        | true =>
          rw [GCode.hasReset, hd, Bool.true_or] at h
          exact absurd h (by simp)
      have hrest : GCode.hasReset rest = false := by
        rw [GCode.hasReset, hhead, Bool.false_or] at h
        exact h
      have hcond : ¬(l.1 = ['G', '9', '2'] ∧ (GCode.getParam l.2 'E').isSome = true) := by
        rintro ⟨h1, h2⟩
        rw [decide_eq_true h1, h2, Bool.and_self] at hhead
        exact Bool.true_eq_false.mp hhead
      rw [GCode.lastBaseline, if_neg hcond]
      exact ih.1 hrest b
    · intro h b b'
      by_cases hd : l.1 = ['G', '9', '2'] ∧ (GCode.getParam l.2 'E').isSome = true
      · obtain ⟨e, hE⟩ := Option.isSome_iff_exists.mp hd.2
        rw [GCode.lastBaseline, if_pos hd, GCode.lastBaseline, if_pos hd, hE]
        rfl
      · have hrest : GCode.hasReset rest = true := by
          rw [GCode.hasReset] at h
          rcases Bool.or_eq_true_iff.mp h with h1 | h1
          · exact absurd ⟨decide_eq_true_eq.mp (Bool.and_eq_true_iff.mp h1).1,
              (Bool.and_eq_true_iff.mp h1).2⟩ hd
          · exact h1
        rw [GCode.lastBaseline, if_neg hd, GCode.lastBaseline, if_neg hd]
        exact ih.2 hrest b b'

lemma runCmds_watermark (hist : List GCode.HistLine) :
    ∀ b : ℚ, (GCode.runCmds ⟨b⟩ hist).last_e_value =
      (GCode.esSinceLastReset [] hist).foldl max (GCode.lastBaseline b hist) := by
  induction hist with
  | nil =>
    intro b
    simp [GCode.runCmds, GCode.esSinceLastReset, GCode.lastBaseline]
  | cons l rest ih =>
    intro b
    by_cases hg : l.1 = ['G', '0'] ∨ l.1 = ['G', '1']
    · have hne : ¬ l.1 = ['G', '9', '2'] := by
        rcases hg with h | h <;> simp [h]
      have hcond : ¬(l.1 = ['G', '9', '2'] ∧ (GCode.getParam l.2 'E').isSome = true) :=
        fun hc => hne hc.1
      have hlb : GCode.lastBaseline b (l :: rest) = GCode.lastBaseline b rest := by
        rw [GCode.lastBaseline, if_neg hcond]
      cases hE : GCode.getParam l.2 'E' with
      | some e =>
        have hstep : (GCode.applyCommand ⟨b⟩ l.1 l.2).1 = ⟨max b e⟩ := by
          by_cases hbe : e > b
          · simp [GCode.applyCommand, if_pos hg, hE, if_pos hbe, max_eq_right hbe.le]
          · simp [GCode.applyCommand, if_pos hg, hE, if_neg hbe, max_eq_left (not_lt.mp hbe)]
        have hes : GCode.esSinceLastReset [] (l :: rest) = GCode.esSinceLastReset [e] rest := by
          rw [GCode.esSinceLastReset, if_pos hg, hE]
          rfl
        rw [GCode.runCmds, hstep, ih (max b e), hes, hlb, esSinceLastReset_acc rest [e]]
        by_cases hr : GCode.hasReset rest = true
        · rw [if_pos hr, (lastBaseline_cases rest).2 hr (max b e) b]
        · have hr' : GCode.hasReset rest = false := by
            cases hx : GCode.hasReset rest with
            | false => rfl
            | true => exact absurd hx hr
          rw [if_neg hr, (lastBaseline_cases rest).1 hr' (max b e),
            (lastBaseline_cases rest).1 hr' b]
          simp [List.foldl_cons]
      | none =>
        have hstep : (GCode.applyCommand ⟨b⟩ l.1 l.2).1 = ⟨b⟩ := by
          simp [GCode.applyCommand, if_pos hg, hE]
        have hes : GCode.esSinceLastReset [] (l :: rest) = GCode.esSinceLastReset [] rest := by
          rw [GCode.esSinceLastReset, if_pos hg, hE]
        rw [GCode.runCmds, hstep, ih b, hes, hlb]
    · by_cases h92 : l.1 = ['G', '9', '2']
      · cases hE : GCode.getParam l.2 'E' with
        | some e =>
          have hcond : l.1 = ['G', '9', '2'] ∧ (GCode.getParam l.2 'E').isSome = true := by
            rw [hE]; exact ⟨h92, rfl⟩
          have hstep : (GCode.applyCommand ⟨b⟩ l.1 l.2).1 = ⟨e⟩ := by
            simp [GCode.applyCommand, if_neg hg, h92, hE]
          have hes : GCode.esSinceLastReset [] (l :: rest) = GCode.esSinceLastReset [] rest := by
            rw [GCode.esSinceLastReset, if_neg hg, if_pos hcond]
          have hlb : GCode.lastBaseline b (l :: rest) = GCode.lastBaseline e rest := by
            rw [GCode.lastBaseline, if_pos hcond, hE]
            rfl
          rw [GCode.runCmds, hstep, ih e, hes, hlb]
        | none =>
          have hcond : ¬(l.1 = ['G', '9', '2'] ∧ (GCode.getParam l.2 'E').isSome = true) := by
            rw [hE]; rintro ⟨-, h⟩; exact Bool.false_ne_true h
          have hstep : (GCode.applyCommand ⟨b⟩ l.1 l.2).1 = ⟨b⟩ := by
            simp [GCode.applyCommand, if_neg hg, h92, hE]
          have hes : GCode.esSinceLastReset [] (l :: rest) = GCode.esSinceLastReset [] rest := by
            rw [GCode.esSinceLastReset, if_neg hg, if_neg hcond]
          have hlb : GCode.lastBaseline b (l :: rest) = GCode.lastBaseline b rest := by
            rw [GCode.lastBaseline, if_neg hcond]
          rw [GCode.runCmds, hstep, ih b, hes, hlb]
      · have hcond : ¬(l.1 = ['G', '9', '2'] ∧ (GCode.getParam l.2 'E').isSome = true) :=
          fun hc => h92 hc.1
        have hstep : (GCode.applyCommand ⟨b⟩ l.1 l.2).1 = ⟨b⟩ := by
          simp [GCode.applyCommand, if_neg hg, h92]
        have hes : GCode.esSinceLastReset [] (l :: rest) = GCode.esSinceLastReset [] rest := by
          rw [GCode.esSinceLastReset, if_neg hg, if_neg hcond]
        have hlb : GCode.lastBaseline b (l :: rest) = GCode.lastBaseline b rest := by
          rw [GCode.lastBaseline, if_neg hcond]
        rw [GCode.runCmds, hstep, ih b, hes, hlb]

/-- C3 counterexample: after "G92 E5" followed by "G1 E3", the highest E value
seen via G0/G1 since the last G92 reset is 3, but the watermark is 5 - the
claim's closing invariant fails as stated. -/
theorem C3_watermark_not_highest_e_counterexample :
    GCode.esSinceLastReset []
        [(['G', '9', '2'], [('E', (5 : ℚ))]), (['G', '1'], [('E', (3 : ℚ))])] = [3] ∧
    (GCode.runCmds ⟨0⟩
        [(['G', '9', '2'], [('E', (5 : ℚ))]), (['G', '1'], [('E', (3 : ℚ))])]).last_e_value
      = 5 ∧
    (5 : ℚ) ≠ 3 := by
  refine ⟨?_, ?_, by norm_num⟩
  · simp +decide [GCode.esSinceLastReset, GCode.getParam, List.find?]
  · simp only [GCode.runCmds, GCode.applyCommand]
    norm_num +decide [GCode.getParam, List.find?]

/-- C3 (amended): for every G0/G1 dispatch, the result extrudes exactly when
an E parameter is present and strictly above the watermark, in which case the
watermark becomes that E value, and in every other case the command does not
extrude and the watermark is unchanged; consequently the watermark always
equals the maximum of the last reset baseline (the most recent G92 E value,
or the initial watermark) and the E values seen via G0/G1 since that reset. -/
theorem C3_extruding_iff_e_above_watermark :
    (∀ (st : GCode.GCodeProcessor) (command : List Char) (ps : GCode.RawParams) (e : ℚ),
        (command = ['G', '0'] ∨ command = ['G', '1']) →
        GCode.getParam ps 'E' = some e → st.last_e_value < e →
        (GCode.applyCommand st command ps).2.map GCode.MoveCommand.extruding = some true ∧
        (GCode.applyCommand st command ps).1 = ⟨e⟩) ∧
    (∀ (st : GCode.GCodeProcessor) (command : List Char) (ps : GCode.RawParams) (e : ℚ),
        (command = ['G', '0'] ∨ command = ['G', '1']) →
        GCode.getParam ps 'E' = some e → ¬ st.last_e_value < e →
        (GCode.applyCommand st command ps).2.map GCode.MoveCommand.extruding = some false ∧
        (GCode.applyCommand st command ps).1 = st) ∧
    (∀ (st : GCode.GCodeProcessor) (command : List Char) (ps : GCode.RawParams),
        (command = ['G', '0'] ∨ command = ['G', '1']) →
        GCode.getParam ps 'E' = none →
        (GCode.applyCommand st command ps).2.map GCode.MoveCommand.extruding = some false ∧
        (GCode.applyCommand st command ps).1 = st) ∧
    (∀ (b : ℚ) (hist : List GCode.HistLine),
        (GCode.runCmds ⟨b⟩ hist).last_e_value =
          (GCode.esSinceLastReset [] hist).foldl max (GCode.lastBaseline b hist)) := by
  refine ⟨?_, ?_, ?_, fun b hist => runCmds_watermark hist b⟩
  · intro st command ps e hg hE hlt
    constructor <;> simp [GCode.applyCommand, if_pos hg, hE, if_pos hlt]
  · intro st command ps e hg hE hlt
    constructor <;> simp [GCode.applyCommand, if_pos hg, hE, if_neg hlt]
  · intro st command ps hg hE
    constructor <;> simp [GCode.applyCommand, if_pos hg, hE]

/-- Witness for C3 on a concrete extruding dispatch. -/
theorem C3_extruding_iff_e_above_watermark_witness :
    (GCode.applyCommand ⟨0⟩ ['G', '1'] [('E', (2 : ℚ))]).2.map GCode.MoveCommand.extruding
        = some true ∧
    (GCode.applyCommand ⟨0⟩ ['G', '1'] [('E', (2 : ℚ))]).1 = ⟨2⟩ :=
  C3_extruding_iff_e_above_watermark.1 ⟨0⟩ ['G', '1'] [('E', (2 : ℚ))] 2
    (Or.inr rfl) rfl (by norm_num)
